import Mathlib

/-
  Verification development for the tab-organizer browser extension.

  The embedding translates the TypeScript sources into Lean:
  - src/src/background/index.ts         (activity tracking, stale scan, message router)
  - src/src/shared/lib/tab-grouping.ts  (domain / project grouping)
  - src/unnamed/part_002                (smart-session detection and naming)

  Modelling conventions, used throughout:
  - JavaScript numbers holding millisecond timestamps and durations are
    modelled as Int (they are exact integers in the relevant range).
  - JavaScript strings are modelled as Lean String; the character-level
    helpers below recurse structurally over String.data so that concrete
    instances evaluate inside the kernel.
  - Array.prototype.sort with a numeric comparator is stable (ES2019);
    a stable sort with a total preorder has a unique result, so it is
    modelled by List.insertionSort with the corresponding relation.
  - A JavaScript Map (and the insertion-ordered string-keyed objects used
    as maps) is modelled as an association list in insertion order.
  - The WHATWG URL constructor is modelled for ordinary hierarchical
    scheme://host/path URLs; strings without a scheme separator are
    treated as unparseable, matching the try/catch fallbacks in the code.
-/

namespace TabOrganizer

/- ## Character and string helpers (kernel-evaluable models of JS string ops) -/

/-- Model of the JS check that a string begins with the given pattern. -/
def listIsLeadOf : List Char → List Char → Bool
  | [], _ => true
  | _ :: _, [] => false
  | a :: as, b :: bs => a == b && listIsLeadOf as bs

/-- Model of JS String.includes: pat occurs as a contiguous run inside hay. -/
def listHasRun : List Char → List Char → Bool
  | [], pat => listIsLeadOf pat []
  | c :: t, pat => listIsLeadOf pat (c :: t) || listHasRun t pat

/-- String wrapper for listHasRun: s contains pat as a substring. -/
def strContainsSub (s pat : String) : Bool :=
  listHasRun s.data pat.data

/-- Model of JS toLowerCase for the ASCII strings handled here. -/
def strLower (s : String) : String :=
  String.mk (s.data.map Char.toLower)

/-- Model of JS String.split with a single-character separator. -/
def splitChars (sep : Char) : List Char → List (List Char)
  | [] => [[]]
  | c :: rest =>
    let r := splitChars sep rest
    if c == sep then [] :: r
    else
      match r with
      | [] => [[c]]
      | h :: t => (c :: h) :: t

/-- String wrapper for splitChars. -/
def strSplitChar (sep : Char) (s : String) : List String :=
  (splitChars sep s.data).map String.mk

/-- Model of JS s.charAt(0).toUpperCase() + s.slice(1). -/
def capitalizeFirst (s : String) : String :=
  match s.data with
  | [] => ""
  | c :: rest => String.mk (c.toUpper :: rest)

/-- Model of dropping the first n characters of a string. -/
def strDrop (n : Nat) (s : String) : String :=
  String.mk (s.data.drop n)

/-- Splitting a list at the first occurrence of a contiguous pattern,
returning the part before it and the part after it. -/
def breakOnRun : List Char → List Char → Option (List Char × List Char)
  | [], pat => if listIsLeadOf pat [] then some ([], []) else none
  | c :: t, pat =>
    if listIsLeadOf pat (c :: t) then some ([], (c :: t).drop pat.length)
    else (breakOnRun t pat).map (fun p => (c :: p.1, p.2))

/- ## Data model (shared/types, as used by the code and described in the spec) -/

/-- One activity record per live tab, keyed by tab identifier. -/
structure TabActivity where
  chrome_tab_id : Nat
  url : String
  title : String
  favicon_url : Option String
  last_active_at : Int
  total_active_time_ms : Int
  visit_count : Nat
  window_id : Nat
  deriving DecidableEq

/-- Derived projection produced by the stale scan. -/
structure StaleTab where
  chrome_tab_id : Nat
  url : String
  title : String
  favicon_url : Option String
  inactive_hours : Int
  deriving DecidableEq

/-- Member tab of a smart session. -/
structure SmartSessionTab where
  chrome_tab_id : Nat
  url : String
  title : String
  favicon_url : Option String
  first_seen_at : Int
  last_active_at : Int
  deriving DecidableEq

/-- A detected smart session. ISO timestamp strings are modelled by the
underlying epoch milliseconds, which new Date(ms).toISOString carries
faithfully (getTime on the parsed value returns the same ms). -/
structure SmartSession where
  id : String
  name : String
  tabs : List SmartSessionTab
  start_time : Int
  end_time : Int
  auto_generated : Bool
  topic_tags : List String
  dominant_domain : Option String
  deriving DecidableEq

/-- A domain or project tab group. -/
structure TabGroup where
  id : String
  name : String
  domain : String
  tabs : List TabActivity
  tab_count : Nat
  color : String
  deriving DecidableEq

/-- A user-saved tab record. -/
structure LocalSavedTab where
  id : String
  url : String
  title : String
  favicon_url : Option String
  created_at : String
  session_id : Option String
  folder_id : Option String
  deriving DecidableEq

/-- A user folder record. -/
structure LocalFolder where
  id : String
  name : String
  icon : Option String
  color : Option String
  position : Nat
  created_at : String
  deriving DecidableEq

/- ## URL model -/

/-- Hostname and pathname of a parsed URL. -/
structure URLParts where
  hostname : String
  pathname : String
  deriving DecidableEq

/-- Model of the WHATWG URL constructor for hierarchical URLs: requires a
nonempty scheme before ://, skips extra leading slashes, reads the
authority up to the first slash, question mark or hash, drops userinfo and
port, lowercases the host, and defaults the path to a single slash.
Returns none where the JS constructor throws. -/
def parseURL (url : String) : Option URLParts :=
  match breakOnRun url.data "://".data with
  | none => none
  | some (scheme, rest0) =>
    if scheme.isEmpty then none
    else
      let rest := rest0.dropWhile (· == '/')
      let authority := rest.takeWhile (fun c => !(c == '/' || c == '?' || c == '#'))
      let afterAuth := rest.drop authority.length
      let hostPort := (splitChars '@' authority).getLastD []
      let hostname := (hostPort.takeWhile (fun c => !(c == ':'))).map Char.toLower
      let path := afterAuth.takeWhile (fun c => !(c == '?' || c == '#'))
      some { hostname := String.mk hostname
             pathname := if path.isEmpty then "/" else String.mk path }

/-- Model of hostname.replace applied to a leading www. label. -/
def stripWWW (host : String) : String :=
  if listIsLeadOf "www.".data host.data then strDrop 4 host else host

/-- extractDomain as defined identically in tab-grouping.ts and in the
session module: hostname without the leading www. label, or the literal
unknown placeholder when URL parsing throws. -/
def extractDomain (url : String) : String :=
  match parseURL url with
  | some u => stripWWW u.hostname
  | none => "unknown"

/- ## Tab grouping (src/src/shared/lib/tab-grouping.ts) -/

/-- Fixed color lookup for well-known domains. -/
def DOMAIN_COLORS : List (String × String) :=
  [("github.com", "#24292e"), ("stackoverflow.com", "#f48024"),
   ("google.com", "#4285f4"), ("youtube.com", "#ff0000"),
   ("twitter.com", "#1da1f2"), ("x.com", "#000000"),
   ("linkedin.com", "#0077b5"), ("reddit.com", "#ff4500"),
   ("notion.so", "#000000"), ("figma.com", "#f24e1e"),
   ("slack.com", "#4a154b"), ("discord.com", "#5865f2"),
   ("docs.google.com", "#4285f4"), ("drive.google.com", "#1a73e8"),
   ("mail.google.com", "#ea4335"), ("amazon.com", "#ff9900"),
   ("netflix.com", "#e50914"), ("spotify.com", "#1db954")]

/-- Fallback palette for the hashed color assignment. -/
def DEFAULT_COLORS : List String :=
  ["#6366f1", "#8b5cf6", "#d946ef", "#ec4899",
   "#f43f5e", "#f97316", "#eab308", "#84cc16",
   "#22c55e", "#14b8a6", "#06b6d4", "#0ea5e9"]

/-- Lookup in a string-keyed association list (models object-literal lookup). -/
def lookupStr (m : List (String × String)) (k : String) : Option String :=
  (m.find? (fun p => p.1 = k)).map (·.2)

/-- getDomainColor: fixed lookup, else sum of UTF-16 char codes modulo the
palette size (charCodeAt is modelled by Char.toNat, equal for the BMP
characters occurring in hostnames). -/
def getDomainColor (domain : String) : String :=
  match lookupStr DOMAIN_COLORS domain with
  | some c => c
  | none =>
    let hash := (domain.data.map Char.toNat).sum
    DEFAULT_COLORS.getD (hash % DEFAULT_COLORS.length) ""

/-- Display-name table of getDomainDisplayName. -/
def DISPLAY_NAME_MAP : List (String × String) :=
  [("github.com", "GitHub"), ("stackoverflow.com", "Stack Overflow"),
   ("google.com", "Google"), ("youtube.com", "YouTube"),
   ("twitter.com", "Twitter"), ("x.com", "X"),
   ("linkedin.com", "LinkedIn"), ("reddit.com", "Reddit"),
   ("notion.so", "Notion"), ("figma.com", "Figma"),
   ("slack.com", "Slack"), ("discord.com", "Discord"),
   ("docs.google.com", "Google Docs"), ("drive.google.com", "Google Drive"),
   ("mail.google.com", "Gmail")]

/-- getDomainDisplayName: table lookup, else the capitalized first
dot-separated label of the domain. -/
def getDomainDisplayName (domain : String) : String :=
  match lookupStr DISPLAY_NAME_MAP domain with
  | some n => n
  | none => capitalizeFirst ((strSplitChar '.' domain).getD 0 "")

/-- Insertion into an insertion-ordered multimap: appends the value to an
existing entry or adds a new entry at the end, as a JS Map does. -/
def pushEntry (m : List (String × List TabActivity)) (k : String) (v : TabActivity) :
    List (String × List TabActivity) :=
  match m with
  | [] => [(k, [v])]
  | (k0, vs) :: rest =>
    if k0 = k then (k0, vs ++ [v]) :: rest else (k0, vs) :: pushEntry rest k v

/-- Stable descending sort of tabs by last_active_at, modelling the JS
numeric-comparator sort inside each group. -/
def sortTabsDescByLastActive (l : List TabActivity) : List TabActivity :=
  l.insertionSort (fun a b => b.last_active_at ≤ a.last_active_at)

/-- Stable descending sort of groups by tab_count. -/
def sortGroupsDescByCount (l : List TabGroup) : List TabGroup :=
  l.insertionSort (fun a b => b.tab_count ≤ a.tab_count)

/-- detectTabGroups: bucket tabs by normalized domain, keep buckets of at
least minGroupSize, and sort the groups by descending tab count. -/
def detectTabGroups (tabs : List TabActivity) (minGroupSize : Nat := 2) : List TabGroup :=
  let domainMap := tabs.foldl (fun m tab => pushEntry m (extractDomain tab.url) tab) []
  let groups := (domainMap.filter (fun p => minGroupSize ≤ p.2.length)).map
    (fun p =>
      ({ id := "group-" ++ p.1,
         name := getDomainDisplayName p.1,
         domain := p.1,
         tabs := sortTabsDescByLastActive p.2,
         tab_count := p.2.length,
         color := getDomainColor p.1 } : TabGroup))
  sortGroupsDescByCount groups

/-- detectProjectGroups: bucket github.com tabs by the owner/repository
pair of the first two nonempty path segments, keep buckets of size at
least 2. The group name drops the leading github: tag of the key, which
is what the replace call in the source does since the key starts with it. -/
def detectProjectGroups (tabs : List TabActivity) : List TabGroup :=
  let projectMap := tabs.foldl
    (fun m tab =>
      match parseURL tab.url with
      | none => m
      | some u =>
        if u.hostname = "github.com" then
          match (splitChars '/' u.pathname.data).filter (fun seg => !seg.isEmpty) with
          | p0 :: p1 :: _ =>
            pushEntry m ("github:" ++ String.mk p0 ++ "/" ++ String.mk p1) tab
          | _ => m
        else m)
    []
  let groups := (projectMap.filter (fun p => 2 ≤ p.2.length)).map
    (fun p =>
      ({ id := "project-" ++ p.1,
         name := strDrop 7 p.1,
         domain := "github.com",
         tabs := sortTabsDescByLastActive p.2,
         tab_count := p.2.length,
         color := (lookupStr DOMAIN_COLORS "github.com").getD "" } : TabGroup))
  sortGroupsDescByCount groups

/-- getAllSmartGroups: merge project groups and domain groups, dropping a
domain group only when its domain was claimed by a project group and that
domain is github.com, then sort everything by descending tab count. -/
def getAllSmartGroups (tabs : List TabActivity) : List TabGroup :=
  let domainGroups := detectTabGroups tabs 2
  let projectGroups := detectProjectGroups tabs
  let projectDomains := projectGroups.map (·.domain)
  let filteredDomainGroups := domainGroups.filter
    (fun g => g.domain ∉ projectDomains || g.domain ≠ "github.com")
  sortGroupsDescByCount (projectGroups ++ filteredDomainGroups)

/- ## Smart sessions (src/unnamed/part_002) -/

/-- Fixed keyword-to-topic table, in source order. -/
def TOPIC_KEYWORDS : List (String × List String) :=
  [("documentation", ["docs", "documentation", "api", "reference", "guide", "manual"]),
   ("tutorial", ["tutorial", "learn", "course", "lesson", "how-to", "getting-started"]),
   ("development", ["github", "gitlab", "bitbucket", "code", "repository", "pull-request", "issue"]),
   ("shopping", ["cart", "checkout", "buy", "shop", "store", "product", "amazon", "ebay"]),
   ("social", ["twitter", "facebook", "linkedin", "reddit", "instagram", "tiktok"]),
   ("video", ["youtube", "vimeo", "netflix", "twitch", "video", "watch"]),
   ("news", ["news", "article", "blog", "post", "medium"]),
   ("email", ["mail", "inbox", "gmail", "outlook"]),
   ("design", ["figma", "sketch", "design", "canva", "adobe"]),
   ("productivity", ["notion", "trello", "asana", "jira", "slack", "calendar"])]

/-- Display names of the time-of-day buckets. -/
def TIME_OF_DAY_NAMES : List (String × String) :=
  [("morning", "Morning"), ("afternoon", "Afternoon"),
   ("evening", "Evening"), ("night", "Night")]

/-- Hour in [0, 24) of an epoch-millisecond timestamp; models the
Date getHours call in a fixed (UTC) timezone. -/
def hourOfTimestamp (t : Int) : Int :=
  (t.fdiv 3600000) % 24

/-- getTimeOfDay: bucket of the hour with boundaries 5 / 12 / 17 / 21. -/
def getTimeOfDay (timestamp : Int) : String :=
  let hour := hourOfTimestamp timestamp
  if 5 ≤ hour ∧ hour < 12 then "morning"
  else if 12 ≤ hour ∧ hour < 17 then "afternoon"
  else if 17 ≤ hour ∧ hour < 21 then "evening"
  else "night"

/-- extractTopicsFromTab: match the lowercased url-plus-title text against
every keyword list; the JS Set accumulates matching topics in table order. -/
def extractTopicsFromTab (tab : TabActivity) : List String :=
  let searchText := strLower (tab.url ++ " " ++ tab.title)
  TOPIC_KEYWORDS.foldl
    (fun topics p =>
      if p.2.any (fun kw => strContainsSub searchText kw) then
        if p.1 ∈ topics then topics else topics ++ [p.1]
      else topics)
    []

/-- Incrementing a counter in an insertion-ordered tally map, as the JS Map
set / get pattern does: update in place when present, append when new. -/
def tallyInc (m : List (String × Nat)) (k : String) : List (String × Nat) :=
  match m with
  | [] => [(k, 1)]
  | (k0, n) :: rest => if k0 = k then (k0, n + 1) :: rest else (k0, n) :: tallyInc rest k

/-- Stable descending sort of tally entries by count. -/
def sortTalliesDescByCount (l : List (String × Nat)) : List (String × Nat) :=
  l.insertionSort (fun a b => b.2 ≤ a.2)

/-- The topicCounts tally built inside extractTopicsFromTabs. -/
def topicCountsOf (tabs : List TabActivity) : List (String × Nat) :=
  tabs.foldl (fun m tab => (extractTopicsFromTab tab).foldl tallyInc m) []

/-- extractTopicsFromTabs: tally topic occurrences over the tabs, sort by
descending count (stable, so ties keep tally-map insertion order), keep
the top three topics. -/
def extractTopicsFromTabs (tabs : List TabActivity) : List String :=
  ((sortTalliesDescByCount (topicCountsOf tabs)).take 3).map Prod.fst

/-- getDominantDomain: tally domains and take the first strict-maximum
count of at least 2 while scanning the tally in insertion order. -/
def getDominantDomain (tabs : List TabActivity) : Option String :=
  let domainCounts := tabs.foldl (fun m tab => tallyInc m (extractDomain tab.url)) []
  (domainCounts.foldl
    (fun (acc : Option String × Nat) p =>
      if acc.2 < p.2 ∧ 2 ≤ p.2 then (some p.1, p.2) else acc)
    (none, 0)).1

/-- Model of the TS cast of a SmartSessionTab to TabActivity: the cast
object is only ever read at url and title, so the remaining fields are
filled with unread defaults. -/
def SmartSessionTab.asActivity (t : SmartSessionTab) : TabActivity :=
  { chrome_tab_id := t.chrome_tab_id,
    url := t.url,
    title := t.title,
    favicon_url := t.favicon_url,
    last_active_at := t.last_active_at,
    total_active_time_ms := 0,
    visit_count := 0,
    window_id := 0 }

/-- generateSessionName: time-of-day label plus the capitalized top topic,
else the capitalized first dot-separated label of the dominant domain,
else the literal word Session. -/
def generateSessionName (tabs : List SmartSessionTab) (startTime : Int) : String :=
  let timeOfDay := (lookupStr TIME_OF_DAY_NAMES (getTimeOfDay startTime)).getD ""
  let topics := extractTopicsFromTabs (tabs.map SmartSessionTab.asActivity)
  match topics with
  | topic :: _ => timeOfDay ++ " " ++ capitalizeFirst topic
  | [] =>
    match getDominantDomain (tabs.map SmartSessionTab.asActivity) with
    | some d => timeOfDay ++ " " ++ capitalizeFirst ((strSplitChar '.' d).getD 0 "")
    | none => timeOfDay ++ " Session"

/-- The fixed session gap of 30 minutes, in milliseconds. -/
def SESSION_GAP_MS : Int := 30 * 60 * 1000

/-- Conversion of an activity record to a session member tab. -/
def toSessionTab (tab : TabActivity) : SmartSessionTab :=
  { chrome_tab_id := tab.chrome_tab_id,
    url := tab.url,
    title := tab.title,
    favicon_url := tab.favicon_url,
    first_seen_at := tab.last_active_at - tab.total_active_time_ms,
    last_active_at := tab.last_active_at }

/-- createSession: assemble a session; the id is derived from the start
timestamp, start_time and end_time carry the epoch milliseconds of the
ISO strings. -/
def createSession (tabs : List SmartSessionTab) (startTime endTime : Int) : SmartSession :=
  { id := "session-" ++ toString startTime,
    name := generateSessionName tabs startTime,
    tabs := tabs,
    start_time := startTime,
    end_time := endTime,
    auto_generated := true,
    topic_tags := extractTopicsFromTabs (tabs.map SmartSessionTab.asActivity),
    dominant_domain := getDominantDomain (tabs.map SmartSessionTab.asActivity) }

/-- Stable ascending sort of activity records by last_active_at. -/
def sortTabsAscByLastActive (l : List TabActivity) : List TabActivity :=
  l.insertionSort (fun a b => a.last_active_at ≤ b.last_active_at)

/-- Stable descending sort of sessions by start time. -/
def sortSessionsDescByStart (l : List SmartSession) : List SmartSession :=
  l.insertionSort (fun a b => b.start_time ≤ a.start_time)

/-- The walk over the sorted records in detectSmartSessions: prev is the
previous record, cur the members of the in-progress session, startT its
start time, acc the finished sessions. On a gap larger than
SESSION_GAP_MS the in-progress session is flushed when it has at least
two members, ending at the previous record; the trailing session is
flushed the same way when the walk ends. -/
def detectLoop (prev : TabActivity) (cur : List SmartSessionTab) (startT : Int)
    (acc : List SmartSession) : List TabActivity → List SmartSession
  | [] =>
    if 2 ≤ cur.length then acc ++ [createSession cur startT prev.last_active_at] else acc
  | tab :: rest =>
    if SESSION_GAP_MS < tab.last_active_at - prev.last_active_at then
      let acc2 :=
        if 2 ≤ cur.length then acc ++ [createSession cur startT prev.last_active_at] else acc
      detectLoop tab [toSessionTab tab] tab.last_active_at acc2 rest
    else
      detectLoop tab (cur ++ [toSessionTab tab]) startT acc rest

/-- detectSmartSessions: sort records ascending by last_active_at, walk
them splitting at gaps above 30 minutes, keep sessions of at least two
members, and return the sessions sorted by descending start time. -/
def detectSmartSessions (tabs : List TabActivity) : List SmartSession :=
  match sortTabsAscByLastActive tabs with
  | [] => []
  | t :: rest => sortSessionsDescByStart (detectLoop t [toSessionTab t] t.last_active_at [] rest)

/- ## Background service worker (src/src/background/index.ts) -/

/-- The UserSettings interface of shared/types (src/unnamed/part_000):
inactive_threshold_hours, auto_archive_days, notification_enabled, theme
(a light / dark / system string union, modelled as String), sync_enabled. -/
structure UserSettings where
  inactive_threshold_hours : Int
  auto_archive_days : Int
  notification_enabled : Bool
  theme : String
  sync_enabled : Bool
  deriving DecidableEq

/-- The DEFAULT_SETTINGS constant of shared/types (src/unnamed/part_000):
threshold 8 hours, archive after 30 days, notifications on, system theme,
sync enabled. -/
def DEFAULT_SETTINGS : UserSettings :=
  { inactive_threshold_hours := 8,
    auto_archive_days := 30,
    notification_enabled := true,
    theme := "system",
    sync_enabled := true }

/-- The persisted activity map: entries keyed by tab id, in the iteration
order that Object.entries yields. -/
def TabActivityMap := List (Nat × TabActivity)

/-- The stale record pushed for a candidate activity record. -/
def mkStale (a : TabActivity) (inactiveMs : Int) : StaleTab :=
  { chrome_tab_id := a.chrome_tab_id,
    url := a.url,
    title := a.title,
    favicon_url := a.favicon_url,
    inactive_hours := inactiveMs.fdiv 3600000 }

/-- The entry walk of checkForInactiveTabs: an entry past the threshold is
reported when its key is a live tab and deleted when it is not; every
other entry is kept untouched. chrome.tabs.get succeeds exactly on the
ids in live. -/
def checkEntries (thMs now : Int) (live : List Nat) :
    List (Nat × TabActivity) → List (Nat × TabActivity) × List StaleTab
  | [] => ([], [])
  | (id, a) :: rest =>
    let r := checkEntries thMs now live rest
    let inactiveMs := now - a.last_active_at
    if thMs < inactiveMs then
      if id ∈ live then ((id, a) :: r.1, mkStale a inactiveMs :: r.2)
      else (r.1, r.2)
    else ((id, a) :: r.1, r.2)

/-- checkForInactiveTabs: returns the updated activity map and the stale
list written wholesale to storage; the badge side effect carries no
further state. -/
def checkForInactiveTabs (m : List (Nat × TabActivity)) (settings : UserSettings)
    (now : Int) (live : List Nat) : List (Nat × TabActivity) × List StaleTab :=
  checkEntries (settings.inactive_threshold_hours * 60 * 60 * 1000) now live m

/-- A tab as returned by chrome.tabs.query: id and url are optional. -/
structure SyncTab where
  id : Option Nat
  url : Option String
  title : Option String
  favIconUrl : Option String
  windowId : Nat
  deriving DecidableEq

/-- syncCurrentTabs: create a record (visit_count 1) for every live,
trackable tab that has none, then delete every record whose key is not a
live tab id. New object keys are modelled by appending, which fixes an
iteration order but not the key set. -/
def syncCurrentTabs (tabs : List SyncTab) (m : List (Nat × TabActivity)) (now : Int) :
    List (Nat × TabActivity) :=
  let withNew := tabs.foldl
    (fun acc tab =>
      match tab.id, tab.url with
      | some id, some url =>
        if listIsLeadOf "chrome://".data url.data then acc
        else if acc.any (fun p => p.1 = id) then acc
        else acc ++ [(id,
          ({ chrome_tab_id := id,
             url := url,
             title := tab.title.getD "",
             favicon_url := tab.favIconUrl,
             last_active_at := now,
             total_active_time_ms := 0,
             visit_count := 1,
             window_id := tab.windowId } : TabActivity))]
      | _, _ => acc)
    m
  let existingTabIds := tabs.filterMap (·.id)
  withNew.filter (fun p => p.1 ∈ existingTabIds)

/- ## Message router (src/src/background/index.ts, handleMessageAsync) -/

/-- The inbound message protocol. The constructors cover the request types
the router switches on together with the session and group requests the
UI layer sends (sessionStore.ts); other stands for any remaining type
string. -/
inductive Message where
  | GET_STALE_TABS
  | GET_TAB_ACTIVITY
  | SAVE_TABS (tabIds : List Nat) (folderId : Option String)
  | CLOSE_TABS (tabIds : List Nat)
  | SYNC_NOW
  | GET_FOLDERS
  | CREATE_FOLDER (name : String) (icon : Option String) (color : Option String)
  | UPDATE_FOLDER (id : String) (updates : Option String × Option (Option String) × Option (Option String))
  | DELETE_FOLDER (id : String)
  | GET_SAVED_TABS
  | DELETE_SAVED_TAB (id : String)
  | RESTORE_TABS (tabIds : List String)
  | GET_SMART_SESSIONS
  | GET_TAB_GROUPS
  | other (t : String)
  deriving DecidableEq

/-- Payload of a successful response. -/
inductive RespData where
  | staleList (l : List StaleTab)
  | activityMap (m : List (Nat × TabActivity))
  | folderList (l : List LocalFolder)
  | savedList (l : List LocalSavedTab)
  deriving DecidableEq

/-- Every response is success plus optional data or error. -/
structure MessageResponse where
  success : Bool
  data : Option RespData
  error : Option String
  deriving DecidableEq

/-- The persisted keys the router touches. -/
structure StoreState where
  tab_activity : List (Nat × TabActivity)
  stale_tabs : List StaleTab
  saved_tabs : List LocalSavedTab
  folders : List LocalFolder
  deriving DecidableEq

/-- Host collaborators of the router: the live tab inventory (lookup by
id models chrome.tabs.get), a deterministic supply of fresh UUIDs, and
the current ISO timestamp. -/
structure HostEnv where
  liveTabs : List (Nat × SyncTab)
  freshIds : List String
  nowIso : String

/-- Host-visible effects of one request: urls opened and tab ids closed. -/
structure HostFx where
  createdUrls : List String
  removedIds : List Nat
  deriving DecidableEq

/-- The empty effect. -/
def noFx : HostFx := { createdUrls := [], removedIds := [] }

/-- chrome.tabs.get as a lookup in the host inventory. -/
def lookupLiveTab (env : HostEnv) (id : Nat) : Option SyncTab :=
  (env.liveTabs.find? (fun p => p.1 = id)).map (·.2)

/-- saveTabs: append one saved record per requested tab that still exists
and has a url, drawing ids from the fresh-id supply. -/
def saveTabs (env : HostEnv) (tabIds : List Nat) (folderId : Option String)
    (saved : List LocalSavedTab) : List LocalSavedTab :=
  (tabIds.foldl
    (fun (st : List LocalSavedTab × List String) tabId =>
      match lookupLiveTab env tabId with
      | none => st
      | some t =>
        match t.url with
        | none => st
        | some u =>
          (st.1 ++ [({ id := st.2.headD "",
                       url := u,
                       title := t.title.getD "",
                       favicon_url := t.favIconUrl,
                       created_at := env.nowIso,
                       session_id := none,
                       folder_id := folderId } : LocalSavedTab)],
           st.2.tail))
    (saved, env.freshIds)).1

/-- createFolder: append a folder at position folders.length. -/
def createFolder (env : HostEnv) (name : String) (icon color : Option String)
    (folders : List LocalFolder) : List LocalFolder :=
  folders ++ [{ id := env.freshIds.headD "",
                name := name,
                icon := icon,
                color := color,
                position := folders.length,
                created_at := env.nowIso }]

/-- updateFolder: merge the partial update into the folder with the given
id, if any; the UI only ever updates name, icon and color. -/
def updateFolder (id : String)
    (updates : Option String × Option (Option String) × Option (Option String))
    (folders : List LocalFolder) : List LocalFolder :=
  folders.map (fun f =>
    if f.id = id then
      { f with name := updates.1.getD f.name,
               icon := updates.2.1.getD f.icon,
               color := updates.2.2.getD f.color }
    else f)

/-- deleteFolder: drop the folder and move its saved tabs to unfiled. -/
def deleteFolder (id : String) (folders : List LocalFolder)
    (saved : List LocalSavedTab) : List LocalFolder × List LocalSavedTab :=
  (folders.filter (fun f => f.id ≠ id),
   saved.map (fun t => if t.folder_id = some id then { t with folder_id := none } else t))

/-- deleteSavedTab: drop the saved record with the given id. -/
def deleteSavedTab (id : String) (saved : List LocalSavedTab) : List LocalSavedTab :=
  saved.filter (fun t => t.id ≠ id)

/-- restoreTabs: open a browser tab for every saved record whose id is in
the request list; the saved list itself is not written (the source keeps
restored tabs saved). -/
def restoreTabs (tabIds : List String) (saved : List LocalSavedTab) : List String :=
  (saved.filter (fun t => t.id ∈ tabIds)).map (·.url)

/-- handleMessageAsync: the single dispatch switch of the router. Storage
reads and writes are modelled as succeeding; the catch-all arm is the
default branch of the switch. chrome.tabs.remove is modelled as
succeeding on the requested ids. -/
def handleMessageAsync (env : HostEnv) (s : StoreState) :
    Message → MessageResponse × StoreState × HostFx
  | .GET_STALE_TABS =>
    ({ success := true, data := some (.staleList s.stale_tabs), error := none }, s, noFx)
  | .GET_TAB_ACTIVITY =>
    ({ success := true, data := some (.activityMap s.tab_activity), error := none }, s, noFx)
  | .SAVE_TABS tabIds folderId =>
    ({ success := true, data := none, error := none },
     { s with saved_tabs := saveTabs env tabIds folderId s.saved_tabs }, noFx)
  | .CLOSE_TABS tabIds =>
    ({ success := true, data := none, error := none }, s,
     { createdUrls := [], removedIds := tabIds })
  | .SYNC_NOW =>
    ({ success := true, data := none, error := none }, s, noFx)
  | .GET_FOLDERS =>
    ({ success := true, data := some (.folderList s.folders), error := none }, s, noFx)
  | .CREATE_FOLDER name icon color =>
    ({ success := true, data := none, error := none },
     { s with folders := createFolder env name icon color s.folders }, noFx)
  | .UPDATE_FOLDER id updates =>
    ({ success := true, data := none, error := none },
     { s with folders := updateFolder id updates s.folders }, noFx)
  | .DELETE_FOLDER id =>
    let r := deleteFolder id s.folders s.saved_tabs
    ({ success := true, data := none, error := none },
     { s with folders := r.1, saved_tabs := r.2 }, noFx)
  | .GET_SAVED_TABS =>
    ({ success := true, data := some (.savedList s.saved_tabs), error := none }, s, noFx)
  | .DELETE_SAVED_TAB id =>
    ({ success := true, data := none, error := none },
     { s with saved_tabs := deleteSavedTab id s.saved_tabs }, noFx)
  | .RESTORE_TABS tabIds =>
    ({ success := true, data := none, error := none }, s,
     { createdUrls := restoreTabs tabIds s.saved_tabs, removedIds := [] })
  | .GET_SMART_SESSIONS =>
    ({ success := false, data := none, error := some "Unknown message type" }, s, noFx)
  | .GET_TAB_GROUPS =>
    ({ success := false, data := none, error := some "Unknown message type" }, s, noFx)
  | .other _ =>
    ({ success := false, data := none, error := some "Unknown message type" }, s, noFx)

/- ## Helper lemmas -/

/-- Characterization of the stale-scan walk: the kept map is the set of
entries that are below threshold or live, and the stale list collects the
threshold-exceeding live entries in order. -/
theorem checkEntries_eq (thMs now : Int) (live : List Nat) :
    ∀ m : List (Nat × TabActivity),
    checkEntries thMs now live m =
      (m.filter (fun p =>
         !(decide (thMs < now - p.2.last_active_at)) || decide (p.1 ∈ live)),
       (m.filter (fun p =>
          decide (thMs < now - p.2.last_active_at) && decide (p.1 ∈ live))).map
         (fun p => mkStale p.2 (now - p.2.last_active_at))) := by
  intro m
  induction m with
  | nil => rfl
  | cons p rest ih =>
    obtain ⟨id, a⟩ := p
    simp only [checkEntries, ih, List.filter_cons, List.map]
    by_cases h1 : thMs < now - a.last_active_at
    · by_cases h2 : id ∈ live
      · simp [h1, h2]
      · simp [h1, h2]
    · simp [h1]

/-- The ms threshold of the scan written with the literal 3600000. -/
theorem checkForInactiveTabs_eq (m : List (Nat × TabActivity)) (settings : UserSettings)
    (now : Int) (live : List Nat) :
    checkForInactiveTabs m settings now live =
      checkEntries (settings.inactive_threshold_hours * 3600000) now live m := by
  unfold checkForInactiveTabs
  norm_num [mul_assoc]

/-- Keys determine values in a map with nodup keys. -/
theorem keyInj {α : Type} : ∀ (m : List (Nat × α)), (m.map Prod.fst).Nodup →
    ∀ (k : Nat) (a b : α), (k, a) ∈ m → (k, b) ∈ m → a = b := by
  intro m
  induction m with
  | nil => intro _ k a b ha; cases ha
  | cons p rest ih =>
    intro hnd k a b ha hb
    simp only [List.map_cons, List.nodup_cons] at hnd
    rcases List.mem_cons.mp ha with ha0 | ha1
    · rcases List.mem_cons.mp hb with hb0 | hb1
      · simpa using congrArg Prod.snd (ha0.trans hb0.symm)
      · exfalso
        apply hnd.1
        have : p.1 = k := congrArg Prod.fst ha0.symm
        rw [this]
        exact List.mem_map.mpr ⟨(k, b), hb1, rfl⟩
    · rcases List.mem_cons.mp hb with hb0 | hb1
      · exfalso
        apply hnd.1
        have : p.1 = k := congrArg Prod.fst hb0.symm
        rw [this]
        exact List.mem_map.mpr ⟨(k, a), ha1, rfl⟩
      · exact ih hnd.2 k a b ha1 hb1

/- ## Claim theorems: router and stale scan -/

/-- Claim C1: the claim asserts that GET_SMART_SESSIONS and GET_TAB_GROUPS
requests succeed with the detector results; the router in fact has no case
for either type, so both fall to the default branch and return the failure
response, for every host environment and store state. -/
theorem router_rejects_session_and_group_requests (env : HostEnv) (s : StoreState) :
    (handleMessageAsync env s .GET_SMART_SESSIONS).1 =
      { success := false, data := none, error := some "Unknown message type" } ∧
    (handleMessageAsync env s .GET_TAB_GROUPS).1 =
      { success := false, data := none, error := some "Unknown message type" } :=
  ⟨rfl, rfl⟩

/-- Claim C2: a GET_STALE_TABS request answers success with the stored
stale list; when that list is the scan output for the current map,
threshold, time and live tabs, it is exactly the threshold-exceeding live
subset of the map, and no reported tab id is absent from the live list. -/
theorem getStaleTabs_exact (env : HostEnv) (s : StoreState)
    (m : List (Nat × TabActivity)) (settings : UserSettings) (now : Int) (live : List Nat)
    (hwf : ∀ p ∈ m, (p.2).chrome_tab_id = p.1)
    (hstore : s.stale_tabs = (checkForInactiveTabs m settings now live).2) :
    (handleMessageAsync env s .GET_STALE_TABS).1 =
      { success := true, data := some (.staleList s.stale_tabs), error := none } ∧
    s.stale_tabs =
      (m.filter (fun p =>
         decide (settings.inactive_threshold_hours * 3600000 < now - p.2.last_active_at) &&
         decide (p.1 ∈ live))).map
        (fun p => mkStale p.2 (now - p.2.last_active_at)) ∧
    ∀ st ∈ s.stale_tabs, st.chrome_tab_id ∈ live := by
  have hs2 : s.stale_tabs =
      (m.filter (fun p =>
         decide (settings.inactive_threshold_hours * 3600000 < now - p.2.last_active_at) &&
         decide (p.1 ∈ live))).map
        (fun p => mkStale p.2 (now - p.2.last_active_at)) := by
    rw [hstore, checkForInactiveTabs_eq, checkEntries_eq]
  refine ⟨rfl, hs2, ?_⟩
  intro st hst
  rw [hs2] at hst
  obtain ⟨p, hp, hmk⟩ := List.mem_map.mp hst
  have hpf := List.mem_filter.mp hp
  have hlive : p.1 ∈ live := by
    have := hpf.2
    simp only [Bool.and_eq_true, decide_eq_true_eq] at this
    exact this.2
  have : st.chrome_tab_id = p.2.chrome_tab_id := by rw [← hmk]; rfl
  rw [this, hwf p hpf.1]
  exact hlive

/-- Sample records used by concrete witnesses of the stale-scan claims. -/
def actW1 : TabActivity :=
  { chrome_tab_id := 1, url := "https://a.com/x", title := "A", favicon_url := none,
    last_active_at := 0, total_active_time_ms := 0, visit_count := 1, window_id := 1 }

/-- Second sample record. -/
def actW2 : TabActivity :=
  { chrome_tab_id := 2, url := "https://b.com/x", title := "B", favicon_url := none,
    last_active_at := 0, total_active_time_ms := 0, visit_count := 1, window_id := 1 }

/-- Sample host environment. -/
def envW : HostEnv := { liveTabs := [], freshIds := [], nowIso := "" }

/-- Sample store whose stale list is a fresh scan output. -/
def storeW : StoreState :=
  { tab_activity := [],
    stale_tabs := (checkForInactiveTabs [(1, actW1), (2, actW2)] DEFAULT_SETTINGS 30000000 [1]).2,
    saved_tabs := [],
    folders := [] }

/-- Witness for Claim C2 at a concrete map with one stale live entry and
one stale closed entry. -/
theorem getStaleTabs_exact_witness :
    (handleMessageAsync envW storeW .GET_STALE_TABS).1 =
      { success := true, data := some (.staleList storeW.stale_tabs), error := none } ∧
    storeW.stale_tabs =
      ([(1, actW1), (2, actW2)].filter (fun p =>
         decide (DEFAULT_SETTINGS.inactive_threshold_hours * 3600000 < 30000000 - p.2.last_active_at) &&
         decide (p.1 ∈ [1]))).map
        (fun p => mkStale p.2 (30000000 - p.2.last_active_at)) ∧
    ∀ st ∈ storeW.stale_tabs, st.chrome_tab_id ∈ [1] :=
  getStaleTabs_exact envW storeW [(1, actW1), (2, actW2)] DEFAULT_SETTINGS 30000000 [1]
    (by decide) rfl

/-- Claim C4: an activity record is reported stale iff its inactivity
strictly exceeds the threshold and its tab is still live; every reported
record carries inactive_hours equal to the floored hour count of its
inactivity; and a threshold-exceeding record of a closed tab is deleted
from the map and not reported. -/
theorem staleScan_report_iff (m : List (Nat × TabActivity)) (settings : UserSettings)
    (now : Int) (live : List Nat) (k : Nat) (a : TabActivity)
    (hwf : ∀ p ∈ m, (p.2).chrome_tab_id = p.1)
    (hnd : (m.map Prod.fst).Nodup)
    (hmem : (k, a) ∈ m) :
    (mkStale a (now - a.last_active_at) ∈ (checkForInactiveTabs m settings now live).2 ↔
      (settings.inactive_threshold_hours * 3600000 < now - a.last_active_at ∧ k ∈ live)) ∧
    (∀ st ∈ (checkForInactiveTabs m settings now live).2,
      ∃ q ∈ m, st = mkStale q.2 (now - q.2.last_active_at) ∧
        st.inactive_hours = (now - q.2.last_active_at).fdiv 3600000) ∧
    ((settings.inactive_threshold_hours * 3600000 < now - a.last_active_at ∧ k ∉ live) →
      (∀ b, (k, b) ∉ (checkForInactiveTabs m settings now live).1) ∧
      ∀ st ∈ (checkForInactiveTabs m settings now live).2, st.chrome_tab_id ≠ k) := by
  have hpair := (checkForInactiveTabs_eq m settings now live).trans
    (checkEntries_eq (settings.inactive_threshold_hours * 3600000) now live m)
  have hak : a.chrome_tab_id = k := hwf (k, a) hmem
  refine ⟨⟨?_, ?_⟩, ?_, ?_⟩
  · intro hin
    rw [hpair] at hin
    obtain ⟨q, hq, hmk⟩ := List.mem_map.mp hin
    have hqf := List.mem_filter.mp hq
    have hconds : settings.inactive_threshold_hours * 3600000 < now - q.2.last_active_at ∧
        q.1 ∈ live := by
      have := hqf.2
      simp only [Bool.and_eq_true, decide_eq_true_eq] at this
      exact this
    have hid : q.2.chrome_tab_id = a.chrome_tab_id := by
      have := congrArg StaleTab.chrome_tab_id hmk
      simpa [mkStale] using this
    have hq1 : q.1 = k := by rw [← hwf q hqf.1, hid, hak]
    have hqm : (k, q.2) ∈ m := by
      have : q = (k, q.2) := by
        cases q; simp only at hq1; rw [hq1]
      rw [← this]; exact hqf.1
    have hqa : q.2 = a := keyInj m hnd k q.2 a hqm hmem
    rw [hqa] at hconds
    rw [hq1] at hconds
    exact hconds
  · rintro ⟨h1, h2⟩
    rw [hpair]
    exact List.mem_map.mpr ⟨(k, a), List.mem_filter.mpr ⟨hmem, by simp [h1, h2]⟩, rfl⟩
  · intro st hst
    rw [hpair] at hst
    obtain ⟨q, hq, hmk⟩ := List.mem_map.mp hst
    exact ⟨q, (List.mem_filter.mp hq).1, hmk.symm, by rw [← hmk]; rfl⟩
  · rintro ⟨h1, h2⟩
    constructor
    · intro b hb
      rw [hpair] at hb
      have hbf := List.mem_filter.mp hb
      have hba : b = a := keyInj m hnd k b a hbf.1 hmem
      have := hbf.2
      simp only [Bool.or_eq_true, Bool.not_eq_eq_eq_not, Bool.not_true, decide_eq_false_iff_not,
        decide_eq_true_eq, hba] at this
      rcases this with h | h
      · exact h h1
      · exact h2 h
    · intro st hst
      rw [hpair] at hst
      obtain ⟨q, hq, hmk⟩ := List.mem_map.mp hst
      have hqf := List.mem_filter.mp hq
      have hqlive : q.1 ∈ live := by
        have := hqf.2
        simp only [Bool.and_eq_true, decide_eq_true_eq] at this
        exact this.2
      have hid : st.chrome_tab_id = q.1 := by
        rw [← hmk, ← hwf q hqf.1]; rfl
      intro hk
      rw [hid] at hk
      rw [hk] at hqlive
      exact h2 hqlive

/-- Witness for Claim C4 at the sample two-entry map, record 1 live. -/
theorem staleScan_report_iff_witness :
    (mkStale actW1 (30000000 - actW1.last_active_at) ∈
        (checkForInactiveTabs [(1, actW1), (2, actW2)] DEFAULT_SETTINGS 30000000 [1]).2 ↔
      (DEFAULT_SETTINGS.inactive_threshold_hours * 3600000 < 30000000 - actW1.last_active_at ∧
        (1 : Nat) ∈ [1])) ∧
    (∀ st ∈ (checkForInactiveTabs [(1, actW1), (2, actW2)] DEFAULT_SETTINGS 30000000 [1]).2,
      ∃ q ∈ [(1, actW1), (2, actW2)], st = mkStale q.2 (30000000 - q.2.last_active_at) ∧
        st.inactive_hours = (30000000 - q.2.last_active_at).fdiv 3600000) ∧
    ((DEFAULT_SETTINGS.inactive_threshold_hours * 3600000 < 30000000 - actW1.last_active_at ∧
        (1 : Nat) ∉ [1]) →
      (∀ b, ((1 : Nat), b) ∉
        (checkForInactiveTabs [(1, actW1), (2, actW2)] DEFAULT_SETTINGS 30000000 [1]).1) ∧
      ∀ st ∈ (checkForInactiveTabs [(1, actW1), (2, actW2)] DEFAULT_SETTINGS 30000000 [1]).2,
        st.chrome_tab_id ≠ 1) :=
  staleScan_report_iff [(1, actW1), (2, actW2)] DEFAULT_SETTINGS 30000000 [1] 1 actW1
    (by decide) (by decide) (by decide)

/-- Fresh orphaned record used by the Claim C3 counterexample. -/
def actC3 : TabActivity :=
  { chrome_tab_id := 1, url := "https://a.com/x", title := "A", favicon_url := none,
    last_active_at := 1000, total_active_time_ms := 0, visit_count := 1, window_id := 1 }

/-- Claim C3 counterexample: tab 1 is an orphan (the host reports no open
tabs), yet a run of the periodic stale scan keeps its below-threshold
activity entry unchanged, so the scan does not delete every orphaned
entry as the claim states. -/
theorem staleScan_keeps_fresh_orphan :
    (checkForInactiveTabs [(1, actC3)] DEFAULT_SETTINGS 1000 []).1 = [(1, actC3)] ∧
    (1 : Nat) ∉ ([] : List Nat) :=
  ⟨by decide, by decide⟩

/-- Claim C3 (amended): a run of startup resync deletes every orphaned
activity entry; a run of the periodic stale scan keeps an orphaned entry
exactly when its inactivity is at most the threshold, so an orphan is
scan-deleted only once it crosses the threshold. -/
theorem resync_prunes_orphans_scan_prunes_only_stale
    (tabs : List SyncTab) (m : List (Nat × TabActivity)) (now nowSync : Int)
    (settings : UserSettings) (live : List Nat) (k : Nat) (a : TabActivity)
    (hsync : k ∉ tabs.filterMap (·.id))
    (hm : (k, a) ∈ m) (hlive : k ∉ live) :
    (∀ b, (k, b) ∉ syncCurrentTabs tabs m nowSync) ∧
    ((k, a) ∈ (checkForInactiveTabs m settings now live).1 ↔
      now - a.last_active_at ≤ settings.inactive_threshold_hours * 3600000) := by
  constructor
  · intro b hb
    unfold syncCurrentTabs at hb
    have := (List.mem_filter.mp hb).2
    simp only [decide_eq_true_eq] at this
    exact hsync this
  · rw [checkForInactiveTabs_eq, checkEntries_eq]
    constructor
    · intro hmem
      have hf := (List.mem_filter.mp hmem).2
      simp only [Bool.or_eq_true, Bool.not_eq_eq_eq_not, Bool.not_true, decide_eq_false_iff_not,
        decide_eq_true_eq] at hf
      rcases hf with h | h
      · exact not_lt.mp h
      · exact absurd h hlive
    · intro hle
      exact List.mem_filter.mpr ⟨hm, by simp [not_lt.mpr hle]⟩

/-- Witness for the amended Claim C3: the fresh orphan of the
counterexample is pruned by resync over an empty live tab set and kept by
the scan since its inactivity is below the threshold. -/
theorem resync_prunes_orphans_witness :
    (∀ b, ((1 : Nat), b) ∉ syncCurrentTabs [] [(1, actC3)] 1000) ∧
    ((1, actC3) ∈ (checkForInactiveTabs [(1, actC3)] DEFAULT_SETTINGS 1000 []).1 ↔
      1000 - actC3.last_active_at ≤ DEFAULT_SETTINGS.inactive_threshold_hours * 3600000) :=
  resync_prunes_orphans_scan_prunes_only_stale [] [(1, actC3)] 1000 1000 DEFAULT_SETTINGS []
    1 actC3 (by decide) (by decide) (by decide)

/-- Claim C10: a RESTORE_TABS request succeeds, opens one browser tab per
saved record whose id is in the request list, and leaves the whole store,
the saved_tabs list included, unchanged. -/
theorem restore_opens_saved_and_keeps_list (env : HostEnv) (s : StoreState)
    (tabIds : List String) :
    (handleMessageAsync env s (.RESTORE_TABS tabIds)).1 =
      { success := true, data := none, error := none } ∧
    (handleMessageAsync env s (.RESTORE_TABS tabIds)).2.1 = s ∧
    (handleMessageAsync env s (.RESTORE_TABS tabIds)).2.2.createdUrls =
      (s.saved_tabs.filter (fun t => t.id ∈ tabIds)).map (·.url) :=
  ⟨rfl, rfl, rfl⟩

/- ## Session lemmas -/

/-- Every session produced by the walk is either carried in from the
accumulator or a createSession over at least two member tabs whose ids
come from the current run or the remaining records. -/
theorem mem_detectLoop : ∀ (rest : List TabActivity) (prev : TabActivity)
    (cur : List SmartSessionTab) (startT : Int) (acc : List SmartSession) (s : SmartSession),
    s ∈ detectLoop prev cur startT acc rest →
    s ∈ acc ∨ ∃ c st2 et2, s = createSession c st2 et2 ∧ 2 ≤ c.length ∧
      ∀ x ∈ c.map (·.chrome_tab_id),
        x ∈ cur.map (·.chrome_tab_id) ++ rest.map (·.chrome_tab_id) := by
  intro rest
  induction rest with
  | nil =>
    intro prev cur startT acc s hs
    simp only [detectLoop] at hs
    by_cases h2 : 2 ≤ cur.length
    · rw [if_pos h2] at hs
      rcases List.mem_append.mp hs with h | h
      · exact Or.inl h
      · right
        refine ⟨cur, startT, prev.last_active_at, (List.mem_singleton.mp h), h2, ?_⟩
        intro x hx
        simpa using hx
    · rw [if_neg h2] at hs
      exact Or.inl hs
  | cons tab rest2 ih =>
    intro prev cur startT acc s hs
    simp only [detectLoop] at hs
    by_cases hgap : SESSION_GAP_MS < tab.last_active_at - prev.last_active_at
    · rw [if_pos hgap] at hs
      rcases ih tab [toSessionTab tab] tab.last_active_at _ s hs with h | ⟨c, st2, et2, he, hl, hsub⟩
      · by_cases h2 : 2 ≤ cur.length
        · rw [if_pos h2] at h
          rcases List.mem_append.mp h with h | h
          · exact Or.inl h
          · right
            refine ⟨cur, startT, prev.last_active_at, List.mem_singleton.mp h, h2, ?_⟩
            intro x hx
            exact List.mem_append_left _ hx
        · rw [if_neg h2] at h
          exact Or.inl h
      · right
        refine ⟨c, st2, et2, he, hl, ?_⟩
        intro x hx
        have hmem := hsub x hx
        have h1 : ([toSessionTab tab].map (·.chrome_tab_id)) ++ rest2.map (·.chrome_tab_id) =
            (tab :: rest2).map (·.chrome_tab_id) := by
          simp [toSessionTab]
        rw [h1] at hmem
        exact List.mem_append_right _ hmem
    · rw [if_neg hgap] at hs
      rcases ih tab (cur ++ [toSessionTab tab]) startT acc s hs with h | ⟨c, st2, et2, he, hl, hsub⟩
      · exact Or.inl h
      · right
        refine ⟨c, st2, et2, he, hl, ?_⟩
        intro x hx
        have hmem := hsub x hx
        have h1 : ((cur ++ [toSessionTab tab]).map (·.chrome_tab_id)) ++ rest2.map (·.chrome_tab_id) =
            cur.map (·.chrome_tab_id) ++ (tab :: rest2).map (·.chrome_tab_id) := by
          simp [toSessionTab]
        rw [h1] at hmem
        exact hmem

/-- Unfolding of detectSmartSessions when the sorted record list is
nonempty. -/
theorem detectSmartSessions_cons (t : TabActivity) (rest : List TabActivity)
    (tabs : List TabActivity) (h : sortTabsAscByLastActive tabs = t :: rest) :
    detectSmartSessions tabs =
      sortSessionsDescByStart (detectLoop t [toSessionTab t] t.last_active_at [] rest) := by
  unfold detectSmartSessions
  rw [h]

/-- Membership in the session output seen through the final sort. -/
theorem mem_detectSmartSessions (tabs : List TabActivity) (s : SmartSession)
    (hs : s ∈ detectSmartSessions tabs) :
    ∃ c st2 et2, s = createSession c st2 et2 ∧ 2 ≤ c.length := by
  cases hsort : sortTabsAscByLastActive tabs with
  | nil =>
    rw [detectSmartSessions, hsort] at hs
    cases hs
  | cons t rest =>
    rw [detectSmartSessions_cons t rest tabs hsort] at hs
    have hs2 : s ∈ detectLoop t [toSessionTab t] t.last_active_at [] rest :=
      ((List.perm_insertionSort _ _).mem_iff).mp hs
    rcases mem_detectLoop rest t [toSessionTab t] t.last_active_at [] s hs2 with h | ⟨c, st2, et2, he, hl, _⟩
    · cases h
    · exact ⟨c, st2, et2, he, hl⟩

/- ## Claim theorems: session size and naming -/

/-- Claim C8: every emitted session has at least two member tabs, and the
empty activity input yields the empty session list. -/
theorem sessions_at_least_two_tabs (tabs : List TabActivity) :
    (∀ s ∈ detectSmartSessions tabs, 2 ≤ s.tabs.length) ∧
    detectSmartSessions ([] : List TabActivity) = [] := by
  constructor
  · intro s hs
    obtain ⟨c, st2, et2, he, hl⟩ := mem_detectSmartSessions tabs s hs
    rw [he]
    exact hl
  · rfl

/-- Case split of getTimeOfDay on the hour buckets. -/
theorem getTimeOfDay_eq (t : Int) :
    getTimeOfDay t =
      if 5 ≤ hourOfTimestamp t ∧ hourOfTimestamp t < 12 then "morning"
      else if 12 ≤ hourOfTimestamp t ∧ hourOfTimestamp t < 17 then "afternoon"
      else if 17 ≤ hourOfTimestamp t ∧ hourOfTimestamp t < 21 then "evening"
      else "night" := rfl

/-- Claim C7: an emitted session is named by the time-of-day label of its
start hour with boundaries 5 / 12 / 17 / 21, followed by the capitalized
top topic, else the capitalized first dot-separated label of the dominant
domain, else the literal word Session. -/
theorem session_names (tabs : List TabActivity) (s : SmartSession)
    (hs : s ∈ detectSmartSessions tabs) :
    ∃ label : String,
      ((5 ≤ hourOfTimestamp s.start_time ∧ hourOfTimestamp s.start_time < 12) →
        label = "Morning") ∧
      ((12 ≤ hourOfTimestamp s.start_time ∧ hourOfTimestamp s.start_time < 17) →
        label = "Afternoon") ∧
      ((17 ≤ hourOfTimestamp s.start_time ∧ hourOfTimestamp s.start_time < 21) →
        label = "Evening") ∧
      ((hourOfTimestamp s.start_time < 5 ∨ 21 ≤ hourOfTimestamp s.start_time) →
        label = "Night") ∧
      s.name = label ++ " " ++
        (match s.topic_tags with
         | topic :: _ => capitalizeFirst topic
         | [] =>
           match s.dominant_domain with
           | some d => capitalizeFirst ((strSplitChar '.' d).getD 0 "")
           | none => "Session") := by
  obtain ⟨c, st2, et2, he, _⟩ := mem_detectSmartSessions tabs s hs
  subst he
  have hst : (createSession c st2 et2).start_time = st2 := rfl
  refine ⟨(lookupStr TIME_OF_DAY_NAMES (getTimeOfDay st2)).getD "", ?_, ?_, ?_, ?_, ?_⟩
  · intro h
    rw [hst] at h
    have ht : getTimeOfDay st2 = "morning" := by
      rw [getTimeOfDay_eq, if_pos h]
    rw [ht]
    decide
  · intro h
    rw [hst] at h
    have ht : getTimeOfDay st2 = "afternoon" := by
      rw [getTimeOfDay_eq, if_neg (by omega), if_pos h]
    rw [ht]
    decide
  · intro h
    rw [hst] at h
    have ht : getTimeOfDay st2 = "evening" := by
      rw [getTimeOfDay_eq, if_neg (by omega), if_neg (by omega), if_pos h]
    rw [ht]
    decide
  · intro h
    rw [hst] at h
    have ht : getTimeOfDay st2 = "night" := by
      rw [getTimeOfDay_eq, if_neg (by omega), if_neg (by omega), if_neg (by omega)]
    rw [ht]
    decide
  · show generateSessionName c st2 = _
    unfold generateSessionName
    cases htop : extractTopicsFromTabs (c.map SmartSessionTab.asActivity) with
    | cons topic rest' =>
      simp only [createSession, htop]
    | nil =>
      cases hdom : getDominantDomain (c.map SmartSessionTab.asActivity) with
      | some d => simp only [createSession, htop, hdom]
      | none =>
        simp only [createSession, htop, hdom]
        rw [String.append_assoc]
        rfl

/-- Two close activity records used by the session witnesses. -/
def actS1 : TabActivity :=
  { chrome_tab_id := 1, url := "https://github.com/org/repoA", title := "A",
    favicon_url := none, last_active_at := 0, total_active_time_ms := 0,
    visit_count := 1, window_id := 1 }

/-- Second close activity record. -/
def actS2 : TabActivity :=
  { chrome_tab_id := 2, url := "https://github.com/org/repoA", title := "A2",
    favicon_url := none, last_active_at := 300000, total_active_time_ms := 0,
    visit_count := 1, window_id := 1 }

/-- The single session detected over the two sample records. -/
def sessW : SmartSession :=
  (detectSmartSessions [actS1, actS2]).getD 0 (createSession [] 0 0)

/-- Witness for Claim C8 at the two sample records and the empty input. -/
theorem sessions_at_least_two_tabs_witness :
    2 ≤ sessW.tabs.length ∧ detectSmartSessions ([] : List TabActivity) = [] :=
  ⟨(sessions_at_least_two_tabs [actS1, actS2]).1 sessW (by decide),
   (sessions_at_least_two_tabs [actS1, actS2]).2⟩

/-- Witness for Claim C7 at the sample session. -/
theorem session_names_witness :
    ∃ label : String,
      ((5 ≤ hourOfTimestamp sessW.start_time ∧ hourOfTimestamp sessW.start_time < 12) →
        label = "Morning") ∧
      ((12 ≤ hourOfTimestamp sessW.start_time ∧ hourOfTimestamp sessW.start_time < 17) →
        label = "Afternoon") ∧
      ((17 ≤ hourOfTimestamp sessW.start_time ∧ hourOfTimestamp sessW.start_time < 21) →
        label = "Evening") ∧
      ((hourOfTimestamp sessW.start_time < 5 ∨ 21 ≤ hourOfTimestamp sessW.start_time) →
        label = "Night") ∧
      sessW.name = label ++ " " ++
        (match sessW.topic_tags with
         | topic :: _ => capitalizeFirst topic
         | [] =>
           match sessW.dominant_domain with
           | some d => capitalizeFirst ((strSplitChar '.' d).getD 0 "")
           | none => "Session") :=
  session_names [actS1, actS2] sessW (by decide)

/- ## Topic-tally characterization (Claim C6) -/

/-- First-occurrence deduplication of a key list, in scan order. -/
def dedupFirst (ks : List String) : List String :=
  ks.foldl (fun acc x => if x ∈ acc then acc else acc ++ [x]) []

/-- Folding a per-element inner fold equals folding the flattened list. -/
theorem foldl_inner_eq_bind {α β γ : Type} (g : γ → β → γ) :
    ∀ (l : List α) (f : α → List β) (init : γ),
    l.foldl (fun m a => (f a).foldl g m) init = (l.flatMap f).foldl g init := by
  intro l
  induction l with
  | nil => intro f init; rfl
  | cons a rest ih =>
    intro f init
    simp only [List.foldl_cons, List.flatMap_cons, List.foldl_append]
    exact ih f ((f a).foldl g init)

/-- Membership after the first-occurrence fold. -/
theorem mem_dedupFirst_aux :
    ∀ (ks : List String) (acc : List String) (y : String),
    y ∈ ks.foldl (fun acc x => if x ∈ acc then acc else acc ++ [x]) acc ↔
      y ∈ acc ∨ y ∈ ks := by
  intro ks
  induction ks with
  | nil => intro acc y; simp
  | cons x rest ih =>
    intro acc y
    simp only [List.foldl_cons]
    rw [ih]
    by_cases hx : x ∈ acc
    · rw [if_pos hx]
      constructor
      · rintro (h | h)
        · exact Or.inl h
        · exact Or.inr (List.mem_cons_of_mem _ h)
      · rintro (h | h)
        · exact Or.inl h
        · rcases List.mem_cons.mp h with h | h
          · exact Or.inl (h ▸ hx)
          · exact Or.inr h
    · rw [if_neg hx]
      constructor
      · rintro (h | h)
        · rcases List.mem_append.mp h with h | h
          · exact Or.inl h
          · exact Or.inr (List.mem_cons.mpr (Or.inl (List.mem_singleton.mp h)))
        · exact Or.inr (List.mem_cons_of_mem _ h)
      · rintro (h | h)
        · exact Or.inl (List.mem_append_left _ h)
        · rcases List.mem_cons.mp h with h | h
          · exact Or.inl (List.mem_append_right _ (List.mem_singleton.mpr h))
          · exact Or.inr h

/-- Nodup is preserved by the first-occurrence fold. -/
theorem nodup_dedupFirst_aux :
    ∀ (ks : List String) (acc : List String), acc.Nodup →
    (ks.foldl (fun acc x => if x ∈ acc then acc else acc ++ [x]) acc).Nodup := by
  intro ks
  induction ks with
  | nil => intro acc h; exact h
  | cons x rest ih =>
    intro acc h
    simp only [List.foldl_cons]
    by_cases hx : x ∈ acc
    · rw [if_pos hx]; exact ih acc h
    · rw [if_neg hx]
      apply ih
      simp [List.nodup_append, h, hx]

/-- The deduplicated key list has no duplicates. -/
theorem dedupFirst_nodup (ks : List String) : (dedupFirst ks).Nodup :=
  nodup_dedupFirst_aux ks [] List.nodup_nil

/-- Membership in the deduplicated key list. -/
theorem mem_dedupFirst (ks : List String) (y : String) :
    y ∈ dedupFirst ks ↔ y ∈ ks := by
  rw [dedupFirst, mem_dedupFirst_aux]
  simp

/-- Appending one key to the scan extends the deduplication at the end. -/
theorem dedupFirst_snoc (ks : List String) (k : String) :
    dedupFirst (ks ++ [k]) =
      if k ∈ dedupFirst ks then dedupFirst ks else dedupFirst ks ++ [k] := by
  simp [dedupFirst, List.foldl_append]

/-- Incrementing a key present in a keyed map bumps exactly its value. -/
theorem tallyInc_map_mem (k : String) :
    ∀ (l : List String), l.Nodup → k ∈ l → ∀ f : String → Nat,
    tallyInc (l.map (fun k2 => (k2, f k2))) k =
      l.map (fun k2 => (k2, if k2 = k then f k2 + 1 else f k2)) := by
  intro l
  induction l with
  | nil => intro _ hk; cases hk
  | cons a rest ih =>
    intro hnd hk f
    simp only [List.map_cons, tallyInc]
    by_cases ha : a = k
    · rw [if_pos ha, if_pos ha]
      congr 1
      apply List.map_congr_left
      intro k2 hk2
      have : k2 ≠ k := by
        intro he
        rw [List.nodup_cons] at hnd
        exact hnd.1 (ha ▸ he ▸ hk2)
      rw [if_neg this]
    · rw [if_neg ha, if_neg ha]
      congr 1
      apply ih (List.nodup_cons.mp hnd).2
        (by rcases List.mem_cons.mp hk with h | h; exact absurd h.symm ha; exact h)

/-- Incrementing an absent key appends a fresh singleton count. -/
theorem tallyInc_map_not_mem (k : String) :
    ∀ (l : List String), k ∉ l → ∀ f : String → Nat,
    tallyInc (l.map (fun k2 => (k2, f k2))) k =
      l.map (fun k2 => (k2, f k2)) ++ [(k, 1)] := by
  intro l
  induction l with
  | nil => intro _ f; rfl
  | cons a rest ih =>
    intro hk f
    simp only [List.map_cons, tallyInc]
    have ha : a ≠ k := fun h => hk (List.mem_cons.mpr (Or.inl h.symm))
    rw [if_neg ha]
    simp only [List.cons_append]
    congr 1
    exact ih (fun h => hk (List.mem_cons_of_mem _ h)) f

/-- The tally fold is the first-occurrence key list paired with counts. -/
theorem tallyFold_eq (ks : List String) :
    ks.foldl tallyInc [] = (dedupFirst ks).map (fun k => (k, ks.count k)) := by
  induction ks using List.reverseRecOn with
  | nil => rfl
  | append_singleton ks k ih =>
    rw [List.foldl_append, List.foldl_cons, List.foldl_nil, ih, dedupFirst_snoc]
    by_cases hk : k ∈ dedupFirst ks
    · rw [if_pos hk]
      rw [tallyInc_map_mem k (dedupFirst ks) (dedupFirst_nodup ks) hk]
      apply List.map_congr_left
      intro k2 _
      by_cases h2 : k2 = k
      · subst h2
        simp [List.count_append]
      · simp [List.count_append, List.count_singleton, h2]
    · rw [if_neg hk]
      rw [tallyInc_map_not_mem k (dedupFirst ks) hk]
      rw [List.map_append]
      congr 1
      · apply List.map_congr_left
        intro k2 hk2
        have h2 : k2 ≠ k := fun he => hk (he ▸ hk2)
        simp [List.count_append, List.count_singleton, h2]
      · have : k ∉ ks := fun h => hk ((mem_dedupFirst ks k).mpr h)
        simp [List.count_append, List.count_eq_zero.mpr this]

/-- Nodup is preserved by the guarded first-occurrence fold used in
extractTopicsFromTab. -/
theorem nodup_topic_fold :
    ∀ (l : List (String × List String)) (q : String × List String → Bool)
      (acc : List String), acc.Nodup →
    (l.foldl (fun topics p =>
      if q p then (if p.1 ∈ topics then topics else topics ++ [p.1]) else topics) acc).Nodup := by
  intro l
  induction l with
  | nil => intro _ acc h; exact h
  | cons p rest ih =>
    intro q acc h
    simp only [List.foldl_cons]
    by_cases hq : q p
    · rw [if_pos hq]
      by_cases hp : p.1 ∈ acc
      · rw [if_pos hp]; exact ih q acc h
      · rw [if_neg hp]
        apply ih
        simp [List.nodup_append, h, hp]
    · rw [if_neg hq]; exact ih q acc h

/-- A tab's topic list carries no duplicates. -/
theorem extractTopicsFromTab_nodup (tab : TabActivity) :
    (extractTopicsFromTab tab).Nodup := by
  unfold extractTopicsFromTab
  exact nodup_topic_fold TOPIC_KEYWORDS _ [] List.nodup_nil

/-- Counting a topic across the flattened per-tab topic lists equals
counting the tabs that match it, since each tab lists a topic at most
once. -/
theorem count_flatMap_eq_countP (tabs : List TabActivity) (t : String) :
    (tabs.flatMap extractTopicsFromTab).count t =
      tabs.countP (fun tab => decide (t ∈ extractTopicsFromTab tab)) := by
  induction tabs with
  | nil => rfl
  | cons a rest ih =>
    rw [List.flatMap_cons, List.count_append, List.countP_cons, ih]
    by_cases h : t ∈ extractTopicsFromTab a
    · have h1 : (extractTopicsFromTab a).count t = 1 :=
        List.count_eq_one_of_mem (extractTopicsFromTab_nodup a) h
      rw [h1]
      simp [h]
      omega
    · have h0 : (extractTopicsFromTab a).count t = 0 := List.count_eq_zero.mpr h
      rw [h0]
      simp [h]

/-- The tally of extractTopicsFromTabs, characterized: keys are the
topics in first-occurrence order, values are the matching-tab counts. -/
theorem topicCountsOf_eq (tabs : List TabActivity) :
    topicCountsOf tabs =
      (dedupFirst (tabs.flatMap extractTopicsFromTab)).map
        (fun t => (t, tabs.countP (fun tab => decide (t ∈ extractTopicsFromTab tab)))) := by
  unfold topicCountsOf
  rw [foldl_inner_eq_bind tallyInc tabs extractTopicsFromTab [], tallyFold_eq]
  apply List.map_congr_left
  intro t _
  rw [count_flatMap_eq_countP]

/-- Claim C6 (amended): the derived topic_tags are the at-most-three
topics with the highest occurrence tallies over the session's tabs; ties
between equal tallies are broken by the order in which each topic first
occurs when scanning the tabs in order (within one tab, in table order),
not by the table's global iteration order. -/
theorem topic_tags_top3_first_occurrence (tabs : List TabActivity) :
    extractTopicsFromTabs tabs =
      ((sortTalliesDescByCount
        ((dedupFirst (tabs.flatMap extractTopicsFromTab)).map
          (fun t =>
            (t, tabs.countP (fun tab => decide (t ∈ extractTopicsFromTab tab)))))).take 3).map
        Prod.fst ∧
    (extractTopicsFromTabs tabs).length ≤ 3 := by
  constructor
  · rw [extractTopicsFromTabs, topicCountsOf_eq]
  · rw [extractTopicsFromTabs]
    simp only [List.length_map, List.length_take]
    omega

/-- Modelled from the spec words, for comparison with the code: keep the
topics in the fixed table's iteration order, tally each topic over the
tabs, drop the zero tallies, sort by descending count with ties left in
table order, and keep the top three. -/
def topTopicsByTableOrder (tabs : List TabActivity) : List String :=
  ((sortTalliesDescByCount
      ((TOPIC_KEYWORDS.map Prod.fst).filterMap
        (fun t =>
          let c := tabs.countP (fun tab => decide (t ∈ extractTopicsFromTab tab))
          if c = 0 then none else some (t, c)))).take 3).map Prod.fst

/-- Tab matching only the video topic. -/
def tabV : TabActivity :=
  { chrome_tab_id := 1, url := "http://a", title := "watch", favicon_url := none,
    last_active_at := 0, total_active_time_ms := 0, visit_count := 1, window_id := 1 }

/-- Tab matching only the documentation topic. -/
def tabD : TabActivity :=
  { chrome_tab_id := 2, url := "http://b", title := "docs", favicon_url := none,
    last_active_at := 0, total_active_time_ms := 0, visit_count := 1, window_id := 1 }

/-- Claim C6 counterexample: over a tab matching only video followed by a
tab matching only documentation, both topics tally 1; the code breaks the
tie by first occurrence and returns video first, while the table
iteration order required by the claim puts documentation first. -/
theorem topic_tiebreak_not_table_order :
    extractTopicsFromTabs [tabV, tabD] = ["video", "documentation"] ∧
    topTopicsByTableOrder [tabV, tabD] = ["documentation", "video"] ∧
    (["video", "documentation"] : List String) ≠ ["documentation", "video"] :=
  ⟨by decide, by decide, by decide⟩

/- ## Group-merge lemmas (Claim C5) -/

/-- String append acts as list append on the character data. -/
theorem strAppend_data (a b : String) : (a ++ b).data = a.data ++ b.data := by
  cases a
  cases b
  rfl

/-- A group- id never equals a project- id. -/
theorem group_id_ne_project_id (x y : String) :
    ("group-" ++ x) = ("project-" ++ y) → False := by
  intro h
  have hd := congrArg String.data h
  rw [strAppend_data, strAppend_data] at hd
  have h1 : "group-".data = ['g', 'r', 'o', 'u', 'p', '-'] := rfl
  have h2 : "project-".data = ['p', 'r', 'o', 'j', 'e', 'c', 't', '-'] := rfl
  rw [h1, h2] at hd
  simp at hd

/-- Shape of every domain group: its id is group- followed by its domain. -/
theorem detectTabGroups_shape (tabs : List TabActivity) (n : Nat) :
    ∀ g ∈ detectTabGroups tabs n, g.id = "group-" ++ g.domain := by
  intro g hg
  unfold detectTabGroups at hg
  have hg2 := ((List.perm_insertionSort _ _).mem_iff).mp hg
  obtain ⟨p, _, hmk⟩ := List.mem_map.mp hg2
  rw [← hmk]

/-- Shape of every project group: domain github.com and a project- id. -/
theorem detectProjectGroups_shape (tabs : List TabActivity) :
    ∀ g ∈ detectProjectGroups tabs,
      g.domain = "github.com" ∧ ∃ key, g.id = "project-" ++ key := by
  intro g hg
  unfold detectProjectGroups at hg
  have hg2 := ((List.perm_insertionSort _ _).mem_iff).mp hg
  obtain ⟨p, _, hmk⟩ := List.mem_map.mp hg2
  exact ⟨by rw [← hmk], p.1, by rw [← hmk]⟩

/-- Unfolding of the merge. -/
theorem getAllSmartGroups_eq (tabs : List TabActivity) :
    getAllSmartGroups tabs =
      sortGroupsDescByCount
        (detectProjectGroups tabs ++
          (detectTabGroups tabs 2).filter
            (fun g => g.domain ∉ (detectProjectGroups tabs).map (·.domain) ||
              g.domain ≠ "github.com")) := rfl

instance : IsTotal TabGroup (fun a b => b.tab_count ≤ a.tab_count) :=
  ⟨fun a b => Nat.le_total b.tab_count a.tab_count⟩

instance : IsTrans TabGroup (fun a b => b.tab_count ≤ a.tab_count) :=
  ⟨fun _ _ _ hab hbc => Nat.le_trans hbc hab⟩

/-- Claim C5: when any project group exists for a domain, the whole-domain
group for that domain is absent from the merged output; every other
qualifying domain group is present; and the merged list is sorted by
descending tab count. -/
theorem smartGroups_merge (tabs : List TabActivity) (d : String) :
    ((∃ pg ∈ detectProjectGroups tabs, pg.domain = d) →
      ∀ g ∈ detectTabGroups tabs 2, g.domain = d → g ∉ getAllSmartGroups tabs) ∧
    (∀ g ∈ detectTabGroups tabs 2,
      (g.domain ≠ "github.com" ∨ detectProjectGroups tabs = []) →
        g ∈ getAllSmartGroups tabs) ∧
    (getAllSmartGroups tabs).Sorted (fun a b => b.tab_count ≤ a.tab_count) := by
  refine ⟨?_, ?_, ?_⟩
  · rintro ⟨pg, hpg, hpgd⟩ g hg hgd hout
    have hgid := detectTabGroups_shape tabs 2 g hg
    rw [getAllSmartGroups_eq] at hout
    have hout2 := ((List.perm_insertionSort _ _).mem_iff).mp hout
    rcases List.mem_append.mp hout2 with h | h
    · obtain ⟨_, key, hid⟩ := detectProjectGroups_shape tabs g h
      exact group_id_ne_project_id g.domain key (hgid.symm.trans hid)
    · have hf := (List.mem_filter.mp h).2
      have hpd : pg.domain = "github.com" := (detectProjectGroups_shape tabs pg hpg).1
      have hd : d = "github.com" := hpgd ▸ hpd
      have hgd2 : g.domain = "github.com" := hgd.trans hd
      have hin : g.domain ∈ (detectProjectGroups tabs).map (·.domain) :=
        List.mem_map.mpr ⟨pg, hpg, by rw [hpgd, ← hgd]⟩
      simp [hin, hgd2] at hf
      exact hf pg hpg hpd
  · intro g hg hcond
    rw [getAllSmartGroups_eq]
    apply ((List.perm_insertionSort _ _).mem_iff).mpr
    apply List.mem_append_right
    apply List.mem_filter.mpr
    refine ⟨hg, ?_⟩
    rcases hcond with h | h
    · simp [h]
    · simp [h]
  · rw [getAllSmartGroups_eq]
    exact List.sorted_insertionSort _ _

/-- First project sample tab. -/
def gtab1 : TabActivity :=
  { chrome_tab_id := 1, url := "https://github.com/org/repo/pull/1", title := "pr",
    favicon_url := none, last_active_at := 10, total_active_time_ms := 0,
    visit_count := 1, window_id := 1 }

/-- Second project sample tab. -/
def gtab2 : TabActivity :=
  { chrome_tab_id := 2, url := "https://github.com/org/repo", title := "repo",
    favicon_url := none, last_active_at := 20, total_active_time_ms := 0,
    visit_count := 1, window_id := 1 }

/-- First plain-domain sample tab. -/
def etab1 : TabActivity :=
  { chrome_tab_id := 3, url := "https://example.com/a", title := "a",
    favicon_url := none, last_active_at := 30, total_active_time_ms := 0,
    visit_count := 1, window_id := 1 }

/-- Second plain-domain sample tab. -/
def etab2 : TabActivity :=
  { chrome_tab_id := 4, url := "https://example.com/b", title := "b",
    favicon_url := none, last_active_at := 40, total_active_time_ms := 0,
    visit_count := 1, window_id := 1 }

/-- The sample tab list for the group-merge witness. -/
def grpTabs : List TabActivity := [gtab1, gtab2, etab1, etab2]

/-- An empty placeholder group for list indexing defaults. -/
def emptyGroup : TabGroup :=
  { id := "", name := "", domain := "", tabs := [], tab_count := 0, color := "" }

/-- Witness for Claim C5: over two github.com/org/repo tabs and two
example.com tabs, the github.com whole-domain group is dropped, the
example.com group survives, and the output is sorted. -/
theorem smartGroups_merge_witness :
    ((detectTabGroups grpTabs 2).getD 0 emptyGroup ∉ getAllSmartGroups grpTabs) ∧
    ((detectTabGroups grpTabs 2).getD 1 emptyGroup ∈ getAllSmartGroups grpTabs) ∧
    (getAllSmartGroups grpTabs).Sorted (fun a b => b.tab_count ≤ a.tab_count) :=
  ⟨(smartGroups_merge grpTabs "github.com").1
      ⟨(detectProjectGroups grpTabs).getD 0 emptyGroup, by decide, by decide⟩
      ((detectTabGroups grpTabs 2).getD 0 emptyGroup) (by decide) (by decide),
   (smartGroups_merge grpTabs "github.com").2.1
      ((detectTabGroups grpTabs 2).getD 1 emptyGroup) (by decide) (Or.inl (by decide)),
   (smartGroups_merge grpTabs "github.com").2.2⟩

/- ## Session-partition lemmas (Claim C9) -/

/-- The walk only appends to its accumulator. -/
theorem detectLoop_acc_append : ∀ (rest : List TabActivity) (prev : TabActivity)
    (cur : List SmartSessionTab) (startT : Int) (acc : List SmartSession),
    detectLoop prev cur startT acc rest = acc ++ detectLoop prev cur startT [] rest := by
  intro rest
  induction rest with
  | nil =>
    intro prev cur startT acc
    simp only [detectLoop]
    by_cases h2 : 2 ≤ cur.length
    · rw [if_pos h2, if_pos h2]
      simp
    · rw [if_neg h2, if_neg h2]
      simp
  | cons tab rest2 ih =>
    intro prev cur startT acc
    simp only [detectLoop]
    by_cases hgap : SESSION_GAP_MS < tab.last_active_at - prev.last_active_at
    · rw [if_pos hgap, if_pos hgap]
      by_cases h2 : 2 ≤ cur.length
      · rw [if_pos h2, if_pos h2]
        rw [ih tab [toSessionTab tab] tab.last_active_at
          (acc ++ [createSession cur startT prev.last_active_at])]
        rw [ih tab [toSessionTab tab] tab.last_active_at
          ([] ++ [createSession cur startT prev.last_active_at])]
        simp
      · rw [if_neg h2, if_neg h2]
        rw [ih tab [toSessionTab tab] tab.last_active_at acc]
    · rw [if_neg hgap, if_neg hgap]
      exact ih tab (cur ++ [toSessionTab tab]) startT acc

/-- A last element of a list is a member. -/
theorem mem_of_getLastQ : ∀ (l : List SmartSessionTab) (z : SmartSessionTab),
    l.getLast? = some z → z ∈ l := by
  intro l
  induction l with
  | nil => intro z h; cases h
  | cons a rest ih =>
    intro z h
    cases hr : rest with
    | nil =>
      rw [hr] at h
      simp only [List.getLast?_singleton] at h
      exact List.mem_singleton.mpr (Option.some.inj h).symm
    | cons b rest2 =>
      rw [hr] at h ih
      rw [List.getLast?_cons_cons] at h
      exact List.mem_cons_of_mem _ (ih z h)

/-- When the in-progress run holds two given tab ids and has at least two
members, some emitted session carries both ids. -/
theorem both_ids_in_output : ∀ (rest : List TabActivity) (prev : TabActivity)
    (cur : List SmartSessionTab) (startT : Int) (acc : List SmartSession) (x y : Nat),
    x ∈ cur.map (·.chrome_tab_id) → y ∈ cur.map (·.chrome_tab_id) → 2 ≤ cur.length →
    ∃ s ∈ detectLoop prev cur startT acc rest,
      x ∈ s.tabs.map (·.chrome_tab_id) ∧ y ∈ s.tabs.map (·.chrome_tab_id) := by
  intro rest
  induction rest with
  | nil =>
    intro prev cur startT acc x y hx hy h2
    refine ⟨createSession cur startT prev.last_active_at, ?_, hx, hy⟩
    simp only [detectLoop]
    rw [if_pos h2]
    exact List.mem_append_right _ (List.mem_singleton.mpr rfl)
  | cons tab rest2 ih =>
    intro prev cur startT acc x y hx hy h2
    simp only [detectLoop]
    by_cases hgap : SESSION_GAP_MS < tab.last_active_at - prev.last_active_at
    · rw [if_pos hgap, if_pos h2]
      refine ⟨createSession cur startT prev.last_active_at, ?_, hx, hy⟩
      rw [detectLoop_acc_append]
      apply List.mem_append_left
      exact List.mem_append_right _ (List.mem_singleton.mpr rfl)
    · rw [if_neg hgap]
      apply ih tab (cur ++ [toSessionTab tab]) startT acc x y
      · rw [List.map_append]; exact List.mem_append_left _ hx
      · rw [List.map_append]; exact List.mem_append_left _ hy
      · rw [List.length_append]; omega

/-- Two consecutive records closer than the gap end up sharing an emitted
session: the later one joins the run that ends with the earlier one, the
run then has two members, and a run of two or more is always flushed. -/
theorem close_pair_shares_session : ∀ (rest : List TabActivity) (prev : TabActivity)
    (cur : List SmartSessionTab) (startT : Int) (acc : List SmartSession) (a b : TabActivity),
    (a, b) ∈ (prev :: rest).zip rest →
    b.last_active_at - a.last_active_at < SESSION_GAP_MS →
    cur.getLast? = some (toSessionTab prev) →
    ∃ s ∈ detectLoop prev cur startT acc rest,
      a.chrome_tab_id ∈ s.tabs.map (·.chrome_tab_id) ∧
      b.chrome_tab_id ∈ s.tabs.map (·.chrome_tab_id) := by
  intro rest
  induction rest with
  | nil =>
    intro prev cur startT acc a b hpair
    simp [List.zip_nil_right] at hpair
  | cons tab rest2 ih =>
    intro prev cur startT acc a b hpair hlt hlast
    rw [List.zip_cons_cons] at hpair
    rcases List.mem_cons.mp hpair with heq | hdeep
    · have ha : a = prev := by have := congrArg Prod.fst heq; simpa using this
      have hb : b = tab := by have := congrArg Prod.snd heq; simpa using this
      subst ha
      subst hb
      have hng : ¬(SESSION_GAP_MS < b.last_active_at - a.last_active_at) := by omega
      simp only [detectLoop]
      rw [if_neg hng]
      have hcvt : toSessionTab a ∈ cur := mem_of_getLastQ cur _ hlast
      have hne : cur ≠ [] := by
        intro h
        rw [h] at hlast
        cases hlast
      apply both_ids_in_output rest2 b (cur ++ [toSessionTab b]) startT acc
      · rw [List.map_append]
        apply List.mem_append_left
        exact List.mem_map.mpr ⟨toSessionTab a, hcvt, rfl⟩
      · rw [List.map_append]
        apply List.mem_append_right
        simp [toSessionTab]
      · have h1 : 0 < cur.length := List.length_pos.mpr hne
        rw [List.length_append]
        simp
        omega
    · simp only [detectLoop]
      by_cases hgap : SESSION_GAP_MS < tab.last_active_at - prev.last_active_at
      · rw [if_pos hgap]
        exact ih tab [toSessionTab tab] tab.last_active_at _ a b hdeep hlt
          (by simp)
      · rw [if_neg hgap]
        exact ih tab (cur ++ [toSessionTab tab]) startT acc a b hdeep hlt
          (List.getLast?_concat cur)

/-- Two consecutive records farther apart than the gap never share an
emitted session: the walk closes the run at the gap, already-flushed
sessions cannot contain the not-yet-seen later id, and later sessions
cannot contain the earlier id when ids are distinct. -/
theorem far_pair_separate : ∀ (rest : List TabActivity) (prev : TabActivity)
    (cur : List SmartSessionTab) (startT : Int) (acc : List SmartSession) (a b : TabActivity),
    (a, b) ∈ (prev :: rest).zip rest →
    SESSION_GAP_MS < b.last_active_at - a.last_active_at →
    ((prev :: rest).map (·.chrome_tab_id)).Nodup →
    (∀ s ∈ acc, ∀ tb ∈ rest, tb.chrome_tab_id ∉ s.tabs.map (·.chrome_tab_id)) →
    (∀ tb ∈ rest, tb.chrome_tab_id ∉ cur.map (·.chrome_tab_id)) →
    ∀ s ∈ detectLoop prev cur startT acc rest,
      ¬(a.chrome_tab_id ∈ s.tabs.map (·.chrome_tab_id) ∧
        b.chrome_tab_id ∈ s.tabs.map (·.chrome_tab_id)) := by
  intro rest
  induction rest with
  | nil =>
    intro prev cur startT acc a b hpair
    simp [List.zip_nil_right] at hpair
  | cons tab rest2 ih =>
    intro prev cur startT acc a b hpair hgap hnd hacc hcur s hs hboth
    rw [List.zip_cons_cons] at hpair
    rw [List.map_cons, List.nodup_cons] at hnd
    rcases List.mem_cons.mp hpair with heq | hdeep
    · have ha : a = prev := by have := congrArg Prod.fst heq; simpa using this
      have hb : b = tab := by have := congrArg Prod.snd heq; simpa using this
      subst ha
      subst hb
      simp only [detectLoop] at hs
      rw [if_pos hgap] at hs
      rcases mem_detectLoop rest2 b [toSessionTab b] b.last_active_at
          (if 2 ≤ cur.length then acc ++ [createSession cur startT a.last_active_at] else acc)
          s hs with hmem | ⟨c, st2, et2, he, _, hsub⟩
      · by_cases h2 : 2 ≤ cur.length
        · rw [if_pos h2] at hmem
          rcases List.mem_append.mp hmem with h | h
          · exact hacc s h b (List.mem_cons_self _ _) hboth.2
          · have hse := List.mem_singleton.mp h
            rw [hse] at hboth
            exact hcur b (List.mem_cons_self _ _) hboth.2
        · rw [if_neg h2] at hmem
          exact hacc s hmem b (List.mem_cons_self _ _) hboth.2
      · subst he
        have hprev := hsub _ hboth.1
        have hconv : ([toSessionTab b].map (·.chrome_tab_id)) ++
            rest2.map (·.chrome_tab_id) = (b :: rest2).map (·.chrome_tab_id) := by
          simp [toSessionTab]
        rw [hconv] at hprev
        exact hnd.1 hprev
    · have hnd2 : ((tab :: rest2).map (·.chrome_tab_id)).Nodup := hnd.2
      simp only [detectLoop] at hs
      by_cases hg : SESSION_GAP_MS < tab.last_active_at - prev.last_active_at
      · rw [if_pos hg] at hs
        refine ih tab [toSessionTab tab] tab.last_active_at
          (if 2 ≤ cur.length then acc ++ [createSession cur startT prev.last_active_at] else acc)
          a b hdeep hgap hnd2 ?_ ?_ s hs hboth
        · intro s2 hs2 tb htb
          by_cases h2 : 2 ≤ cur.length
          · rw [if_pos h2] at hs2
            rcases List.mem_append.mp hs2 with h | h
            · exact hacc s2 h tb (List.mem_cons_of_mem _ htb)
            · have hse := List.mem_singleton.mp h
              rw [hse]
              exact hcur tb (List.mem_cons_of_mem _ htb)
          · rw [if_neg h2] at hs2
            exact hacc s2 hs2 tb (List.mem_cons_of_mem _ htb)
        · intro tb htb hmem2
          have hid : tb.chrome_tab_id = tab.chrome_tab_id := by
            simpa [toSessionTab] using hmem2
          have htabnin : tab.chrome_tab_id ∉ rest2.map (·.chrome_tab_id) := by
            rw [List.map_cons, List.nodup_cons] at hnd2
            exact hnd2.1
          apply htabnin
          rw [← hid]
          exact List.mem_map.mpr ⟨tb, htb, rfl⟩
      · rw [if_neg hg] at hs
        refine ih tab (cur ++ [toSessionTab tab]) startT acc a b hdeep hgap hnd2 ?_ ?_ s hs hboth
        · intro s2 hs2 tb htb
          exact hacc s2 hs2 tb (List.mem_cons_of_mem _ htb)
        · intro tb htb hmem2
          rw [List.map_append] at hmem2
          rcases List.mem_append.mp hmem2 with h | h
          · exact hcur tb (List.mem_cons_of_mem _ htb) h
          · have hid : tb.chrome_tab_id = tab.chrome_tab_id := by
              simpa [toSessionTab] using h
            have htabnin : tab.chrome_tab_id ∉ rest2.map (·.chrome_tab_id) := by
              rw [List.map_cons, List.nodup_cons] at hnd2
              exact hnd2.1
            apply htabnin
            rw [← hid]
            exact List.mem_map.mpr ⟨tb, htb, rfl⟩

/-- Claim C9: in the Session Detector's partition of the records sorted
ascending by last_active_at, two consecutive records more than 30 minutes
apart never share an emitted session, and two consecutive records less
than 30 minutes apart always share one. Tab ids are assumed pairwise
distinct, as the activity map keyed by tab id provides. -/
theorem session_gap_partition (tabs : List TabActivity)
    (hnd : (tabs.map (·.chrome_tab_id)).Nodup) :
    ∀ p ∈ (sortTabsAscByLastActive tabs).zip (sortTabsAscByLastActive tabs).tail,
      (SESSION_GAP_MS < p.2.last_active_at - p.1.last_active_at →
        ∀ s ∈ detectSmartSessions tabs,
          ¬(p.1.chrome_tab_id ∈ s.tabs.map (·.chrome_tab_id) ∧
            p.2.chrome_tab_id ∈ s.tabs.map (·.chrome_tab_id))) ∧
      (p.2.last_active_at - p.1.last_active_at < SESSION_GAP_MS →
        ∃ s ∈ detectSmartSessions tabs,
          p.1.chrome_tab_id ∈ s.tabs.map (·.chrome_tab_id) ∧
          p.2.chrome_tab_id ∈ s.tabs.map (·.chrome_tab_id)) := by
  intro p hp
  obtain ⟨a, b⟩ := p
  have hperm : (sortTabsAscByLastActive tabs).Perm tabs := List.perm_insertionSort _ _
  have hndSorted : ((sortTabsAscByLastActive tabs).map (·.chrome_tab_id)).Nodup :=
    ((hperm.map _).nodup_iff).mpr hnd
  cases hsort : sortTabsAscByLastActive tabs with
  | nil =>
    rw [hsort] at hp
    simp at hp
  | cons t rest =>
    rw [hsort] at hp hndSorted
    simp only [List.tail_cons] at hp
    constructor
    · intro hgap s hs
      rw [detectSmartSessions_cons t rest tabs hsort] at hs
      have hs2 : s ∈ detectLoop t [toSessionTab t] t.last_active_at [] rest :=
        ((List.perm_insertionSort _ _).mem_iff).mp hs
      refine far_pair_separate rest t [toSessionTab t] t.last_active_at [] a b hp hgap
        hndSorted ?_ ?_ s hs2
      · intro s2 hs2'
        cases hs2'
      · intro tb htb hmem
        have hid : tb.chrome_tab_id = t.chrome_tab_id := by
          simpa [toSessionTab] using hmem
        rw [List.map_cons, List.nodup_cons] at hndSorted
        apply hndSorted.1
        rw [← hid]
        exact List.mem_map.mpr ⟨tb, htb, rfl⟩
    · intro hlt
      rw [detectSmartSessions_cons t rest tabs hsort]
      obtain ⟨s, hs, hx⟩ := close_pair_shares_session rest t [toSessionTab t]
        t.last_active_at [] a b hp hlt (by simp)
      exact ⟨s, ((List.perm_insertionSort _ _).mem_iff).mpr hs, hx⟩

/-- Distant third record for the Claim C9 witness. -/
def actS3 : TabActivity :=
  { chrome_tab_id := 3, url := "https://news.site/x", title := "n",
    favicon_url := none, last_active_at := 2700000, total_active_time_ms := 0,
    visit_count := 1, window_id := 1 }

/-- Witness for Claim C9 over three records: the close first pair shares
a session, the distant second pair never does. -/
theorem session_gap_partition_witness :
    (∀ s ∈ detectSmartSessions [actS1, actS2, actS3],
      ¬(actS2.chrome_tab_id ∈ s.tabs.map (·.chrome_tab_id) ∧
        actS3.chrome_tab_id ∈ s.tabs.map (·.chrome_tab_id))) ∧
    (∃ s ∈ detectSmartSessions [actS1, actS2, actS3],
      actS1.chrome_tab_id ∈ s.tabs.map (·.chrome_tab_id) ∧
      actS2.chrome_tab_id ∈ s.tabs.map (·.chrome_tab_id)) :=
  ⟨(session_gap_partition [actS1, actS2, actS3] (by decide) (actS2, actS3)
      (by decide)).1 (by decide),
   (session_gap_partition [actS1, actS2, actS3] (by decide) (actS1, actS2)
      (by decide)).2 (by decide)⟩

end TabOrganizer
